import Mathlib

/-!
Verification development for the uniview bounding-box conversion engine.

The engine converts box batches between three encodings — center-normalized
("yolo": cx, cy, w, h as fractions of the image dimensions), absolute
corner+extent ("coco": pixel x, y, w, h), and normalized corner-corner
("albu": x0, y0, x1, y1, each divided by the image width or height) — under a
fixed image shape, with an optional boundary-clamping ("trim") policy.

The conversion module itself (uniview/IM2D/bbox.py: yolo2coco, coco2albu,
yolo2albu and the UniviewBBox facade) is not among the excerpted source
files; only its test suite (tests/test_im2d_bbox.py) and its call sites
(vmo/person_profile.py, dev_now.py, studies/coco_person_instance.py) are.
The converters below are therefore modelled from the specification and
checked against the exact numeric vectors of the repository's test suite.

Numbers are embedded as rationals: every numeric literal appearing in the
code and tests is an exactly representable decimal, and the conversions use
only field arithmetic, min and max.  Image dimensions are pixel counts,
embedded as naturals (the callers pass numpy image shapes); validity is
`height > 0 ∧ width > 0`.
-/

namespace Uniview

/-- Image shape: height and width in pixels.  The third channel component of
the Python `(height, width, depth)` tuples is informational only and unused
in the arithmetic, so it is omitted. -/
structure Shape where
  height : ℕ
  width : ℕ
deriving DecidableEq, Repr

/-- A box row: a 4-tuple of numbers, as the rows of the numpy `(N, 4)` box
arrays.  The meaning of the four components depends on the declared
encoding (center / corner / normalized-corner). -/
structure Box4 where
  v0 : ℚ
  v1 : ℚ
  v2 : ℚ
  v3 : ℚ
deriving DecidableEq, Repr

/-- Modelled from the spec: the independent corner clamp used in pixel
space — a coordinate is clamped into `[0, dim − 1]`. -/
def clampPix (v : ℚ) (dim : ℕ) : ℚ :=
  min (max v 0) ((dim : ℚ) - 1)

/-- Modelled from the spec: the re-clamp applied to already-normalized
coordinates — a coordinate is clamped into `[0, (dim − 1)/dim]`. -/
def clampNorm (v : ℚ) (dim : ℕ) : ℚ :=
  min (max v 0) (((dim : ℚ) - 1) / (dim : ℚ))

/-- Modelled from the spec: `yolo2coco` (centerToCorner), missing from the
excerpt.  Scale the center-normalized box to pixels, derive the unclamped
corner edges, then (when `trim`) apply the width-preserving trim per axis:
if the far edge overshoots `dim − 1` the extent is shrunk to `(dim − 1)`
minus the original pre-clamp near edge, otherwise it is unchanged; only
afterwards is the near edge clamped to `max(near, 0)`. -/
def yolo2coco (trim : Bool) (sh : Shape) (b : Box4) : Box4 :=
  let cxA := b.v0 * (sh.width : ℚ)
  let cyA := b.v1 * (sh.height : ℚ)
  let wA := b.v2 * (sh.width : ℚ)
  let hA := b.v3 * (sh.height : ℚ)
  let x0 := cxA - wA / 2
  let y0 := cyA - hA / 2
  let x1 := x0 + wA
  let y1 := y0 + hA
  if trim then
    let wT := if ((sh.width : ℚ) - 1) < x1 then ((sh.width : ℚ) - 1) - x0 else wA
    let hT := if ((sh.height : ℚ) - 1) < y1 then ((sh.height : ℚ) - 1) - y0 else hA
    ⟨max x0 0, max y0 0, wT, hT⟩
  else
    ⟨x0, y0, wA, hA⟩

/-- Modelled from the spec: `coco2albu` (cornerToNormalizedCorner), missing
from the excerpt.  Compute the unclamped far edges `x1 = x + w`,
`y1 = y + h`; when `trim`, clamp each of the four pixel coordinates
independently into `[0, dim − 1]`; normalize by width / height. -/
def coco2albu (trim : Bool) (sh : Shape) (b : Box4) : Box4 :=
  let x1 := b.v0 + b.v2
  let y1 := b.v1 + b.v3
  if trim then
    ⟨clampPix b.v0 sh.width / (sh.width : ℚ),
     clampPix b.v1 sh.height / (sh.height : ℚ),
     clampPix x1 sh.width / (sh.width : ℚ),
     clampPix y1 sh.height / (sh.height : ℚ)⟩
  else
    ⟨b.v0 / (sh.width : ℚ), b.v1 / (sh.height : ℚ),
     x1 / (sh.width : ℚ), y1 / (sh.height : ℚ)⟩

/-- Modelled from the spec: `yolo2albu` (centerToNormalizedCorner), missing
from the excerpt.  Direct path, not composed through `yolo2coco`: scale and
derive the unclamped corner edges exactly as in `yolo2coco`, then (when
`trim`) apply the independent corner clamp to all four coordinates — not the
width-preserving trim — and normalize. -/
def yolo2albu (trim : Bool) (sh : Shape) (b : Box4) : Box4 :=
  let cxA := b.v0 * (sh.width : ℚ)
  let cyA := b.v1 * (sh.height : ℚ)
  let wA := b.v2 * (sh.width : ℚ)
  let hA := b.v3 * (sh.height : ℚ)
  let x0 := cxA - wA / 2
  let y0 := cyA - hA / 2
  let x1 := x0 + wA
  let y1 := y0 + hA
  if trim then
    ⟨clampPix x0 sh.width / (sh.width : ℚ),
     clampPix y0 sh.height / (sh.height : ℚ),
     clampPix x1 sh.width / (sh.width : ℚ),
     clampPix y1 sh.height / (sh.height : ℚ)⟩
  else
    ⟨x0 / (sh.width : ℚ), y0 / (sh.height : ℚ),
     x1 / (sh.width : ℚ), y1 / (sh.height : ℚ)⟩

/-- Modelled from the spec: the facade's normalized-corner identity path —
the batch is returned as-is, optionally re-clamped into
`[0, (dim − 1)/dim]` when `trim`. -/
def albuTrim (trim : Bool) (sh : Shape) (b : Box4) : Box4 :=
  if trim then
    ⟨clampNorm b.v0 sh.width, clampNorm b.v1 sh.height,
     clampNorm b.v2 sh.width, clampNorm b.v3 sh.height⟩
  else
    b

/-- Batch version of `yolo2coco`: one box per row, rows independent. -/
def yolo2cocoB (trim : Bool) (sh : Shape) (bs : List Box4) : List Box4 :=
  bs.map (yolo2coco trim sh)

/-- Batch version of `coco2albu`. -/
def coco2albuB (trim : Bool) (sh : Shape) (bs : List Box4) : List Box4 :=
  bs.map (coco2albu trim sh)

/-- Batch version of `yolo2albu`. -/
def yolo2albuB (trim : Bool) (sh : Shape) (bs : List Box4) : List Box4 :=
  bs.map (yolo2albu trim sh)

/-- Error conditions of a conversion call. -/
inductive ConvError where
  | invalidShape
  | unknownFormat
deriving DecidableEq, Repr

/-- Modelled from the spec: the `UniviewBBox.get_albu_bbox` facade, missing
from the excerpt.  Fails with `invalidShape` when `width ≤ 0 ∨ height ≤ 0`;
otherwise dispatches on the source-format tag ("yolo" → `yolo2albu`,
"coco" → `coco2albu`, "albu" → identity with optional re-clamp) and fails
with `unknownFormat` on any other tag. -/
def get_albu_bbox (need_trim : Bool) (boxes : List Box4) (boxformat : String)
    (sh : Shape) : Except ConvError (List Box4) :=
  if sh.width = 0 ∨ sh.height = 0 then
    .error .invalidShape
  else if boxformat = "yolo" then
    .ok (yolo2albuB need_trim sh boxes)
  else if boxformat = "coco" then
    .ok (coco2albuB need_trim sh boxes)
  else if boxformat = "albu" then
    .ok (boxes.map (albuTrim need_trim sh))
  else
    .error .unknownFormat

/-- The box-handling step of `viz_vmo_annotation`
(src/uniview/vmo/person_profile.py, lines 330-333): when the declared
format is not "albu" the batch is replaced by
`UniviewBBox().get_albu_bbox(bboxes, box_format, im.shape)` before drawing;
when it is "albu" the batch reaches the drawing step unchanged.  The facade
is constructed with its default trim flag, which the spec states is
`trim = true`. -/
def viz_vmo_annotation_boxes (bboxes : List Box4) (box_format : String)
    (sh : Shape) : Except ConvError (List Box4) :=
  if box_format = "albu" then
    .ok bboxes
  else
    get_albu_bbox true bboxes box_format sh

/-- A normalized-corner box is in-frame for a shape: every coordinate lies
in `[0, (dim − 1)/dim]` for its dimension. -/
def NormInBounds (sh : Shape) (b : Box4) : Prop :=
  (0 ≤ b.v0 ∧ b.v0 ≤ ((sh.width : ℚ) - 1) / (sh.width : ℚ)) ∧
  (0 ≤ b.v1 ∧ b.v1 ≤ ((sh.height : ℚ) - 1) / (sh.height : ℚ)) ∧
  (0 ≤ b.v2 ∧ b.v2 ≤ ((sh.width : ℚ) - 1) / (sh.width : ℚ)) ∧
  (0 ≤ b.v3 ∧ b.v3 ≤ ((sh.height : ℚ) - 1) / (sh.height : ℚ))

instance (sh : Shape) (b : Box4) : Decidable (NormInBounds sh b) := by
  unfold NormInBounds
  exact inferInstance

/-! ### Helper lemmas about the clamps -/

lemma one_le_cast_of_pos {dim : ℕ} (h : 0 < dim) : (1 : ℚ) ≤ (dim : ℚ) := by
  exact_mod_cast h

lemma cast_pos_of_pos {dim : ℕ} (h : 0 < dim) : (0 : ℚ) < (dim : ℚ) := by
  exact_mod_cast h

lemma clampPix_nonneg (v : ℚ) {dim : ℕ} (h : 0 < dim) : 0 ≤ clampPix v dim := by
  unfold clampPix
  have h1 : (0 : ℚ) ≤ (dim : ℚ) - 1 := by
    have := one_le_cast_of_pos h
    linarith
  exact le_min (le_max_right v 0) h1

lemma clampPix_le (v : ℚ) (dim : ℕ) : clampPix v dim ≤ (dim : ℚ) - 1 :=
  min_le_right _ _

lemma clampPix_div_mem (v : ℚ) {dim : ℕ} (h : 0 < dim) :
    0 ≤ clampPix v dim / (dim : ℚ) ∧
    clampPix v dim / (dim : ℚ) ≤ ((dim : ℚ) - 1) / (dim : ℚ) := by
  have hd : (0 : ℚ) < (dim : ℚ) := cast_pos_of_pos h
  constructor
  · exact div_nonneg (clampPix_nonneg v h) hd.le
  · exact (div_le_div_iff_of_pos_right hd).mpr (clampPix_le v dim)

lemma clampPix_of_nonpos (v : ℚ) {dim : ℕ} (h : 0 < dim) (hv : v ≤ 0) :
    clampPix v dim = 0 := by
  unfold clampPix
  have h1 : (0 : ℚ) ≤ (dim : ℚ) - 1 := by
    have := one_le_cast_of_pos h
    linarith
  rw [max_eq_right hv, min_eq_left h1]

lemma clampPix_of_ge (v : ℚ) {dim : ℕ} (h : 0 < dim)
    (hv : (dim : ℚ) - 1 ≤ v) : clampPix v dim = (dim : ℚ) - 1 := by
  unfold clampPix
  have h1 : (0 : ℚ) ≤ (dim : ℚ) - 1 := by
    have := one_le_cast_of_pos h
    linarith
  rw [max_eq_left (h1.trans hv), min_eq_right hv]

lemma clampNorm_mem (v : ℚ) {dim : ℕ} (h : 0 < dim) :
    0 ≤ clampNorm v dim ∧ clampNorm v dim ≤ ((dim : ℚ) - 1) / (dim : ℚ) := by
  unfold clampNorm
  have hd : (0 : ℚ) < (dim : ℚ) := cast_pos_of_pos h
  have h1 : (0 : ℚ) ≤ (dim : ℚ) - 1 := by
    have := one_le_cast_of_pos h
    linarith
  exact ⟨le_min (le_max_right v 0) (div_nonneg h1 hd.le), min_le_right _ _⟩

lemma clampNorm_eq_self (v : ℚ) (dim : ℕ) (h0 : 0 ≤ v)
    (h1 : v ≤ ((dim : ℚ) - 1) / (dim : ℚ)) : clampNorm v dim = v := by
  unfold clampNorm
  rw [max_eq_left h0, min_eq_left h1]

lemma coco2albu_mem (sh : Shape) (b : Box4)
    (hW : 0 < sh.width) (hH : 0 < sh.height) :
    NormInBounds sh (coco2albu true sh b) := by
  unfold NormInBounds coco2albu
  simp only [if_pos]
  exact ⟨clampPix_div_mem _ hW, clampPix_div_mem _ hH,
    clampPix_div_mem _ hW, clampPix_div_mem _ hH⟩

lemma yolo2albu_mem (sh : Shape) (b : Box4)
    (hW : 0 < sh.width) (hH : 0 < sh.height) :
    NormInBounds sh (yolo2albu true sh b) := by
  unfold NormInBounds yolo2albu
  simp only [if_pos]
  exact ⟨clampPix_div_mem _ hW, clampPix_div_mem _ hH,
    clampPix_div_mem _ hW, clampPix_div_mem _ hH⟩

lemma albuTrim_mem (sh : Shape) (b : Box4)
    (hW : 0 < sh.width) (hH : 0 < sh.height) :
    NormInBounds sh (albuTrim true sh b) := by
  unfold NormInBounds albuTrim
  simp only [if_pos]
  exact ⟨clampNorm_mem _ hW, clampNorm_mem _ hH,
    clampNorm_mem _ hW, clampNorm_mem _ hH⟩

lemma albuTrim_id (sh : Shape) (b : Box4) (hb : NormInBounds sh b) :
    albuTrim true sh b = b := by
  obtain ⟨⟨h0a, h0b⟩, ⟨h1a, h1b⟩, ⟨h2a, h2b⟩, ⟨h3a, h3b⟩⟩ := hb
  unfold albuTrim
  simp only [if_pos]
  rw [clampNorm_eq_self _ _ h0a h0b, clampNorm_eq_self _ _ h1a h1b,
    clampNorm_eq_self _ _ h2a h2b, clampNorm_eq_self _ _ h3a h3b]

lemma floor_index_mem (q : ℚ) {dim : ℕ} (h : 0 < dim) (h0 : 0 ≤ q)
    (h1 : q ≤ ((dim : ℚ) - 1) / (dim : ℚ)) :
    0 ≤ ⌊q * (dim : ℚ)⌋ ∧ ⌊q * (dim : ℚ)⌋ ≤ (dim : ℤ) - 1 := by
  have hd : (0 : ℚ) < (dim : ℚ) := cast_pos_of_pos h
  constructor
  · exact Int.floor_nonneg.mpr (mul_nonneg h0 hd.le)
  · have hq : q * (dim : ℚ) ≤ (dim : ℚ) - 1 := (le_div_iff₀ hd).mp h1
    calc ⌊q * (dim : ℚ)⌋ ≤ ⌊((dim : ℚ) - 1)⌋ := Int.floor_le_floor hq
      _ = (dim : ℤ) - 1 := by
          have hc : ((dim : ℚ) - 1) = (((dim : ℤ) - 1 : ℤ) : ℚ) := by push_cast; ring
          rw [hc, Int.floor_intCast]

/-! ### The claims -/

/-- C1, counterexample.  The claim asserts that after trimming every
coordinate of a converted box is in-frame, including in pixel space
`0 ≤ x ≤ width − 1` for a Corner result.  It fails on the width-preserving
trim of the center→corner path: for the center box
`(cx, cy, w, h) = (1.5, 0.5, 0.2, 0.2)` at shape `100 × 100` — a valid
shape — the pixel near edge is `x0 = 150 − 10 = 140`, the far edge
`x1 = 160` overshoots, so the extent is shrunk but the near edge is only
clamped from below: the result has `x = 140 > 99 = width − 1`. -/
theorem centerToCorner_escapes_frame :
    (yolo2coco true ⟨100, 100⟩ ⟨1.5, 0.5, 0.2, 0.2⟩).v0 = 140 ∧
    ¬ ((yolo2coco true ⟨100, 100⟩ ⟨1.5, 0.5, 0.2, 0.2⟩).v0 ≤ (100 : ℚ) - 1) := by
  norm_num [yolo2coco, max_def]

/-- C1, amended.  For every box and every valid shape: each normalized
corner result (corner→normalized, center→normalized, and the normalized
identity re-clamp) has all four coordinates in `[0, (dim − 1)/dim]`, so any
later `⌊coord · dim⌋` pixel index lies in `[0, dim − 1]`; the pixel-space
Corner result of the width-preserving center→corner trim satisfies only the
near-edge lower bounds `0 ≤ x`, `0 ≤ y` — its upper bounds and far-edge
containment can fail. -/
theorem converted_coords_in_frame (sh : Shape) (b : Box4)
    (hW : 0 < sh.width) (hH : 0 < sh.height) :
    NormInBounds sh (coco2albu true sh b) ∧
    NormInBounds sh (yolo2albu true sh b) ∧
    NormInBounds sh (albuTrim true sh b) ∧
    0 ≤ (yolo2coco true sh b).v0 ∧
    0 ≤ (yolo2coco true sh b).v1 ∧
    (∀ q : ℚ, 0 ≤ q → q ≤ ((sh.width : ℚ) - 1) / (sh.width : ℚ) →
      0 ≤ ⌊q * (sh.width : ℚ)⌋ ∧ ⌊q * (sh.width : ℚ)⌋ ≤ (sh.width : ℤ) - 1) := by
  refine ⟨coco2albu_mem sh b hW hH, yolo2albu_mem sh b hW hH,
    albuTrim_mem sh b hW hH, ?_, ?_, fun q h0 h1 => floor_index_mem q hW h0 h1⟩
  · unfold yolo2coco
    simp only [if_pos]
    exact le_max_right _ _
  · unfold yolo2coco
    simp only [if_pos]
    exact le_max_right _ _

/-- C1, witness of the amended theorem at the shape `100 × 200` and the
first corner box of the repository's test suite. -/
theorem converted_coords_in_frame_witness :
    0 < (Shape.mk 100 200).width ∧ 0 < (Shape.mk 100 200).height ∧
    NormInBounds ⟨100, 200⟩ (coco2albu true ⟨100, 200⟩ ⟨-10, 55, 40, 144⟩) :=
  ⟨by decide, by decide,
    (converted_coords_in_frame ⟨100, 200⟩ ⟨-10, 55, 40, 144⟩
      (by decide) (by decide)).1⟩

/-- C2.  The center→corner conversion with trim applies the
width-preserving trim per axis: the extent is shrunk to `(dim − 1)` minus
the original pre-clamp near edge exactly when the unclamped far edge
exceeds `dim − 1`, and is kept otherwise; the near edge is clamped to
`max(near, 0)` only afterwards, the pre-clamp near edge serving as the
pivot of the shrink.  On the test batch `[[0.1,0.8,0.4,0.5],
[0.9,0.8,0.4,0.5]]` at shape `100 × 100` this yields
`[[0,55,40,44],[70,55,29,44]]`. -/
theorem centerToCorner_trim_policy :
    (∀ (sh : Shape) (b : Box4),
      yolo2coco true sh b =
        ⟨max (b.v0 * (sh.width : ℚ) - b.v2 * (sh.width : ℚ) / 2) 0,
         max (b.v1 * (sh.height : ℚ) - b.v3 * (sh.height : ℚ) / 2) 0,
         if ((sh.width : ℚ) - 1) <
             (b.v0 * (sh.width : ℚ) - b.v2 * (sh.width : ℚ) / 2) +
               b.v2 * (sh.width : ℚ)
           then ((sh.width : ℚ) - 1) -
             (b.v0 * (sh.width : ℚ) - b.v2 * (sh.width : ℚ) / 2)
           else b.v2 * (sh.width : ℚ),
         if ((sh.height : ℚ) - 1) <
             (b.v1 * (sh.height : ℚ) - b.v3 * (sh.height : ℚ) / 2) +
               b.v3 * (sh.height : ℚ)
           then ((sh.height : ℚ) - 1) -
             (b.v1 * (sh.height : ℚ) - b.v3 * (sh.height : ℚ) / 2)
           else b.v3 * (sh.height : ℚ)⟩) ∧
    yolo2cocoB true ⟨100, 100⟩ [⟨0.1, 0.8, 0.4, 0.5⟩, ⟨0.9, 0.8, 0.4, 0.5⟩] =
      [⟨0, 55, 40, 44⟩, ⟨70, 55, 29, 44⟩] := by
  constructor
  · intro sh b
    rfl
  · norm_num [yolo2cocoB, yolo2coco, max_def, min_def, Box4.mk.injEq]

/-- C3.  The direct center→normalized conversion with trim scales by
width / height, derives the unclamped corner edges, clamps each of the four
corner coordinates independently into `[0, dim − 1]` — the independent
corner clamp, not the width-preserving trim — and divides by
width / height.  On the test batch `[[0.1,0.8,0.4,0.5],[0.9,0.8,0.4,0.5]]`
at shape `(height, width) = (100, 200)` this yields
`[[0,0.55,0.3,0.99],[0.7,0.55,0.995,0.99]]`. -/
theorem centerToNormalizedCorner_corner_clamp :
    (∀ (sh : Shape) (b : Box4),
      yolo2albu true sh b =
        ⟨min (max (b.v0 * (sh.width : ℚ) - b.v2 * (sh.width : ℚ) / 2) 0)
            ((sh.width : ℚ) - 1) / (sh.width : ℚ),
         min (max (b.v1 * (sh.height : ℚ) - b.v3 * (sh.height : ℚ) / 2) 0)
            ((sh.height : ℚ) - 1) / (sh.height : ℚ),
         min (max ((b.v0 * (sh.width : ℚ) - b.v2 * (sh.width : ℚ) / 2) +
              b.v2 * (sh.width : ℚ)) 0)
            ((sh.width : ℚ) - 1) / (sh.width : ℚ),
         min (max ((b.v1 * (sh.height : ℚ) - b.v3 * (sh.height : ℚ) / 2) +
              b.v3 * (sh.height : ℚ)) 0)
            ((sh.height : ℚ) - 1) / (sh.height : ℚ)⟩) ∧
    yolo2albuB true ⟨100, 200⟩ [⟨0.1, 0.8, 0.4, 0.5⟩, ⟨0.9, 0.8, 0.4, 0.5⟩] =
      [⟨0, 0.55, 0.3, 0.99⟩, ⟨0.7, 0.55, 0.995, 0.99⟩] := by
  constructor
  · intro sh b
    rfl
  · norm_num [yolo2albuB, yolo2albu, clampPix, max_def, min_def, Box4.mk.injEq]

/-- C4.  The corner→normalized conversion with trim computes the far edges
`x1 = x + w`, `y1 = y + h`, clamps each of the four coordinates
independently into `[0, width − 1]` or `[0, height − 1]`, and normalizes by
width / height; every output coordinate lies in `[0, (dim − 1)/dim]`.  On
the test batch `[[-10,55,40,144],[70,55,150,60]]` at shape
`(height, width) = (100, 200)` this yields
`[[0,0.55,0.15,0.99],[0.35,0.55,0.995,0.99]]`. -/
theorem cornerToNormalizedCorner_corner_clamp (sh : Shape) (b : Box4)
    (hW : 0 < sh.width) (hH : 0 < sh.height) :
    coco2albu true sh b =
      ⟨min (max b.v0 0) ((sh.width : ℚ) - 1) / (sh.width : ℚ),
       min (max b.v1 0) ((sh.height : ℚ) - 1) / (sh.height : ℚ),
       min (max (b.v0 + b.v2) 0) ((sh.width : ℚ) - 1) / (sh.width : ℚ),
       min (max (b.v1 + b.v3) 0) ((sh.height : ℚ) - 1) / (sh.height : ℚ)⟩ ∧
    NormInBounds sh (coco2albu true sh b) ∧
    coco2albuB true ⟨100, 200⟩ [⟨-10, 55, 40, 144⟩, ⟨70, 55, 150, 60⟩] =
      [⟨0, 0.55, 0.15, 0.99⟩, ⟨0.35, 0.55, 0.995, 0.99⟩] := by
  refine ⟨rfl, coco2albu_mem sh b hW hH, ?_⟩
  norm_num [coco2albuB, coco2albu, clampPix, max_def, min_def, Box4.mk.injEq]

/-- C4, witness at the first corner box of the test suite and the test
shape `(height, width) = (100, 200)`. -/
theorem cornerToNormalizedCorner_corner_clamp_witness :
    0 < (Shape.mk 100 200).width ∧ 0 < (Shape.mk 100 200).height ∧
    NormInBounds ⟨100, 200⟩ (coco2albu true ⟨100, 200⟩ ⟨70, 55, 150, 60⟩) :=
  ⟨by decide, by decide,
    (cornerToNormalizedCorner_corner_clamp ⟨100, 200⟩ ⟨70, 55, 150, 60⟩
      (by decide) (by decide)).2.1⟩

/-- C5.  With trim enabled, the direct center→normalized path is not the
composition of center→corner and corner→normalized: on the center box
`[0.1, 0.8, 0.4, 0.5]` at shape `100 × 100` — which overshoots only on the
near edge in x — the direct path's independent corner clamp gives a
normalized far edge `x1 = 0.3` (pixel width 30), while the composition
through the width-preserving trim gives `x1 = 0.4` (pixel width 40), so the
two results differ. -/
theorem trim_paths_disagree :
    (yolo2albu true ⟨100, 100⟩ ⟨0.1, 0.8, 0.4, 0.5⟩).v2 = 0.3 ∧
    (coco2albu true ⟨100, 100⟩
      (yolo2coco true ⟨100, 100⟩ ⟨0.1, 0.8, 0.4, 0.5⟩)).v2 = 0.4 ∧
    yolo2albu true ⟨100, 100⟩ ⟨0.1, 0.8, 0.4, 0.5⟩ ≠
      coco2albu true ⟨100, 100⟩
        (yolo2coco true ⟨100, 100⟩ ⟨0.1, 0.8, 0.4, 0.5⟩) := by
  refine ⟨?_, ?_, ?_⟩
  · norm_num [yolo2albu, clampPix, max_def, min_def]
  · norm_num [coco2albu, yolo2coco, clampPix, max_def, min_def]
  · intro h
    have h2 := congrArg Box4.v2 h
    revert h2
    norm_num [yolo2albu, coco2albu, yolo2coco, clampPix, max_def, min_def]

/-- C6.  Every successful facade conversion returns a batch of the same
length as its input, obtained by mapping one per-box converter over the
input — so no element is dropped, added, or reordered and output row `i`
depends only on input row `i`; and for every valid shape and recognized
format the empty batch converts to the empty batch with no error. -/
theorem batch_length_order_preserved :
    (∀ (trim : Bool) (bs : List Box4) (fmt : String) (sh : Shape)
        (out : List Box4),
      get_albu_bbox trim bs fmt sh = .ok out →
      out.length = bs.length ∧ ∃ f : Box4 → Box4, out = bs.map f) ∧
    (∀ (trim : Bool) (sh : Shape) (fmt : String),
      0 < sh.width → 0 < sh.height →
      (fmt = "yolo" ∨ fmt = "coco" ∨ fmt = "albu") →
      get_albu_bbox trim [] fmt sh = .ok []) := by
  constructor
  · intro trim bs fmt sh out h
    unfold get_albu_bbox yolo2albuB coco2albuB at h
    split_ifs at h with h1 h2 h3 h4
    · injection h with h
      subst h
      exact ⟨List.length_map _ _, ⟨_, rfl⟩⟩
    · injection h with h
      subst h
      exact ⟨List.length_map _ _, ⟨_, rfl⟩⟩
    · injection h with h
      subst h
      exact ⟨List.length_map _ _, ⟨_, rfl⟩⟩
  · intro trim sh fmt hW hH hfmt
    have hsh : ¬ (sh.width = 0 ∨ sh.height = 0) := by omega
    rcases hfmt with rfl | rfl | rfl <;>
      simp [get_albu_bbox, hsh, yolo2albuB, coco2albuB]

/-- C6, witness: a one-box yolo batch keeps its length, and the empty batch
converts to the empty batch at the valid shape `100 × 100`. -/
theorem batch_length_order_preserved_witness :
    (yolo2albuB true ⟨100, 100⟩ [⟨0.5, 0.5, 0.2, 0.2⟩]).length =
      ([⟨0.5, 0.5, 0.2, 0.2⟩] : List Box4).length ∧
    get_albu_bbox true [] "yolo" ⟨100, 100⟩ = .ok [] :=
  ⟨(batch_length_order_preserved.1 true [⟨0.5, 0.5, 0.2, 0.2⟩] "yolo"
      ⟨100, 100⟩ (yolo2albuB true ⟨100, 100⟩ [⟨0.5, 0.5, 0.2, 0.2⟩]) rfl).1,
   batch_length_order_preserved.2 true ⟨100, 100⟩ "yolo"
     (by decide) (by decide) (Or.inl rfl)⟩

/-- C7.  A box entirely outside the frame converts, with trim, to a
degenerate zero-extent box pinned at the nearest frame boundary, with no
error and no omitted row: on each axis, a center box whose pixel edges are
both `≤ 0` gets both normalized coordinates pinned at `0`, one whose pixel
edges are both `≥ dim − 1` gets both pinned at `(dim − 1)/dim`; and for the
example `Center{cx = −1, cy = −1, w = 0.1, h = 0.1}` the facade returns,
at every valid shape, the one-row batch fully pinned at `(0, 0)`. -/
theorem outside_box_degenerate (sh : Shape) (b : Box4)
    (hW : 0 < sh.width) (hH : 0 < sh.height) :
    (b.v0 * (sh.width : ℚ) - b.v2 * (sh.width : ℚ) / 2 ≤ 0 →
      (b.v0 * (sh.width : ℚ) - b.v2 * (sh.width : ℚ) / 2) +
          b.v2 * (sh.width : ℚ) ≤ 0 →
      (yolo2albu true sh b).v0 = 0 ∧ (yolo2albu true sh b).v2 = 0) ∧
    ((sh.width : ℚ) - 1 ≤ b.v0 * (sh.width : ℚ) - b.v2 * (sh.width : ℚ) / 2 →
      (sh.width : ℚ) - 1 ≤ (b.v0 * (sh.width : ℚ) -
          b.v2 * (sh.width : ℚ) / 2) + b.v2 * (sh.width : ℚ) →
      (yolo2albu true sh b).v0 = ((sh.width : ℚ) - 1) / (sh.width : ℚ) ∧
      (yolo2albu true sh b).v2 = ((sh.width : ℚ) - 1) / (sh.width : ℚ)) ∧
    (b.v1 * (sh.height : ℚ) - b.v3 * (sh.height : ℚ) / 2 ≤ 0 →
      (b.v1 * (sh.height : ℚ) - b.v3 * (sh.height : ℚ) / 2) +
          b.v3 * (sh.height : ℚ) ≤ 0 →
      (yolo2albu true sh b).v1 = 0 ∧ (yolo2albu true sh b).v3 = 0) ∧
    ((sh.height : ℚ) - 1 ≤ b.v1 * (sh.height : ℚ) -
          b.v3 * (sh.height : ℚ) / 2 →
      (sh.height : ℚ) - 1 ≤ (b.v1 * (sh.height : ℚ) -
          b.v3 * (sh.height : ℚ) / 2) + b.v3 * (sh.height : ℚ) →
      (yolo2albu true sh b).v1 = ((sh.height : ℚ) - 1) / (sh.height : ℚ) ∧
      (yolo2albu true sh b).v3 = ((sh.height : ℚ) - 1) / (sh.height : ℚ)) ∧
    get_albu_bbox true [⟨-1, -1, 0.1, 0.1⟩] "yolo" sh = .ok [⟨0, 0, 0, 0⟩] := by
  have hsh : ¬ (sh.width = 0 ∨ sh.height = 0) := by omega
  refine ⟨fun hn hf => ?_, fun hn hf => ?_, fun hn hf => ?_, fun hn hf => ?_, ?_⟩
  · unfold yolo2albu
    simp only [if_pos]
    rw [clampPix_of_nonpos _ hW hn, clampPix_of_nonpos _ hW hf, zero_div]
    exact ⟨rfl, rfl⟩
  · unfold yolo2albu
    simp only [if_pos]
    rw [clampPix_of_ge _ hW hn, clampPix_of_ge _ hW hf]
    exact ⟨rfl, rfl⟩
  · unfold yolo2albu
    simp only [if_pos]
    rw [clampPix_of_nonpos _ hH hn, clampPix_of_nonpos _ hH hf, zero_div]
    exact ⟨rfl, rfl⟩
  · unfold yolo2albu
    simp only [if_pos]
    rw [clampPix_of_ge _ hH hn, clampPix_of_ge _ hH hf]
    exact ⟨rfl, rfl⟩
  · have hWq : (0 : ℚ) < (sh.width : ℚ) := cast_pos_of_pos hW
    have hHq : (0 : ℚ) < (sh.height : ℚ) := cast_pos_of_pos hH
    have hx0 : (-1 : ℚ) * (sh.width : ℚ) - (0.1 : ℚ) * (sh.width : ℚ) / 2 ≤ 0 := by
      nlinarith
    have hx1 : ((-1 : ℚ) * (sh.width : ℚ) - (0.1 : ℚ) * (sh.width : ℚ) / 2) +
        (0.1 : ℚ) * (sh.width : ℚ) ≤ 0 := by nlinarith
    have hy0 : (-1 : ℚ) * (sh.height : ℚ) - (0.1 : ℚ) * (sh.height : ℚ) / 2 ≤ 0 := by
      nlinarith
    have hy1 : ((-1 : ℚ) * (sh.height : ℚ) - (0.1 : ℚ) * (sh.height : ℚ) / 2) +
        (0.1 : ℚ) * (sh.height : ℚ) ≤ 0 := by nlinarith
    unfold get_albu_bbox yolo2albuB
    rw [if_neg hsh, if_pos rfl]
    unfold yolo2albu
    simp only [if_pos, List.map]
    rw [clampPix_of_nonpos _ hW hx0, clampPix_of_nonpos _ hW hx1,
      clampPix_of_nonpos _ hH hy0, clampPix_of_nonpos _ hH hy1, zero_div,
      zero_div]

/-- C7, witness at the shape `100 × 100`: the fully-outside example box is
pinned at the origin by the facade, and its x-axis is degenerate. -/
theorem outside_box_degenerate_witness :
    ((yolo2albu true ⟨100, 100⟩ ⟨-1, -1, 0.1, 0.1⟩).v0 = 0 ∧
      (yolo2albu true ⟨100, 100⟩ ⟨-1, -1, 0.1, 0.1⟩).v2 = 0) ∧
    get_albu_bbox true [⟨-1, -1, 0.1, 0.1⟩] "yolo" ⟨100, 100⟩ =
      .ok [⟨0, 0, 0, 0⟩] :=
  ⟨(outside_box_degenerate ⟨100, 100⟩ ⟨-1, -1, 0.1, 0.1⟩ (by decide)
      (by decide)).1 (by norm_num) (by norm_num),
   (outside_box_degenerate ⟨100, 100⟩ ⟨-1, -1, 0.1, 0.1⟩ (by decide)
      (by decide)).2.2.2.2⟩

/-- C8.  The trim clamp is idempotent on the canonical encoding: for a
normalized-corner batch whose every coordinate already lies in
`[0, (dim − 1)/dim]` and a valid shape, the facade's trim path for the
"albu" tag returns the batch unchanged. -/
theorem albu_trim_idempotent (sh : Shape) (bs : List Box4)
    (hW : 0 < sh.width) (hH : 0 < sh.height)
    (hbs : ∀ b ∈ bs, NormInBounds sh b) :
    get_albu_bbox true bs "albu" sh = .ok bs := by
  have hsh : ¬ (sh.width = 0 ∨ sh.height = 0) := by omega
  unfold get_albu_bbox
  rw [if_neg hsh, if_neg (by decide), if_neg (by decide), if_pos rfl]
  congr 1
  calc bs.map (albuTrim true sh)
      = bs.map id := List.map_congr_left fun b hb => albuTrim_id sh b (hbs b hb)
    _ = bs := List.map_id bs

/-- C8, witness: a concrete already-clamped one-box batch at the shape
`100 × 100` passes through the facade's trim path unchanged. -/
theorem albu_trim_idempotent_witness :
    get_albu_bbox true [⟨0, 0, 0.5, 0.5⟩] "albu" ⟨100, 100⟩ =
      .ok [⟨0, 0, 0.5, 0.5⟩] :=
  albu_trim_idempotent ⟨100, 100⟩ [⟨0, 0, 0.5, 0.5⟩] (by decide) (by decide)
    (by
      intro b hb
      rw [List.mem_singleton] at hb
      subst hb
      norm_num [NormInBounds])

/-- C9.  A facade conversion fails with the invalid-shape condition exactly
when `width ≤ 0` or `height ≤ 0` (fatally: no partial result is produced,
the call returns the bare error); and for every shape with positive width
and height, every numeric box batch under a recognized format tag converts
to a successful result — no numeric value in the batch is rejected. -/
theorem invalid_shape_iff (trim : Bool) (bs : List Box4) (fmt : String)
    (sh : Shape) :
    (get_albu_bbox trim bs fmt sh = .error .invalidShape ↔
      sh.width ≤ 0 ∨ sh.height ≤ 0) ∧
    (0 < sh.width → 0 < sh.height →
      (fmt = "yolo" ∨ fmt = "coco" ∨ fmt = "albu") →
      ∃ out, get_albu_bbox trim bs fmt sh = .ok out) := by
  constructor
  · by_cases hsh : sh.width = 0 ∨ sh.height = 0
    · rw [get_albu_bbox, if_pos hsh]
      simp only [true_iff, iff_true]
      omega
    · rw [get_albu_bbox, if_neg hsh]
      have hr : ¬ (sh.width ≤ 0 ∨ sh.height ≤ 0) := by omega
      simp only [hr, iff_false]
      split_ifs <;> simp
  · intro hW hH hfmt
    have hsh : ¬ (sh.width = 0 ∨ sh.height = 0) := by omega
    rcases hfmt with rfl | rfl | rfl
    · exact ⟨_, by rw [get_albu_bbox, if_neg hsh, if_pos rfl]⟩
    · exact ⟨_, by rw [get_albu_bbox, if_neg hsh, if_neg (by decide),
        if_pos rfl]⟩
    · exact ⟨_, by rw [get_albu_bbox, if_neg hsh, if_neg (by decide),
        if_neg (by decide), if_pos rfl]⟩

/-- C9, witness: at width `0` the facade fails with the invalid-shape
error, and at the valid shape `(height, width) = (100, 200)` the same call
succeeds. -/
theorem invalid_shape_iff_witness :
    get_albu_bbox true [] "yolo" ⟨100, 0⟩ = .error .invalidShape ∧
    ∃ out, get_albu_bbox true [] "yolo" ⟨100, 200⟩ = .ok out :=
  ⟨(invalid_shape_iff true [] "yolo" ⟨100, 0⟩).1.mpr (Or.inl (by decide)),
   (invalid_shape_iff true [] "yolo" ⟨100, 200⟩).2 (by decide) (by decide)
     (Or.inl rfl)⟩

/-- C10.  In the box-handling step of viz_vmo_annotation, a batch declared
in "albu" format is passed to the drawing step completely unchanged — no
conversion and no re-clamping — while for any other declared format the
UniviewBBox facade is invoked on the batch. -/
theorem viz_albu_passthrough (bs : List Box4) (fmt : String) (sh : Shape)
    (hfmt : fmt ≠ "albu") :
    viz_vmo_annotation_boxes bs "albu" sh = .ok bs ∧
    viz_vmo_annotation_boxes bs fmt sh = get_albu_bbox true bs fmt sh := by
  constructor
  · rw [viz_vmo_annotation_boxes, if_pos rfl]
  · rw [viz_vmo_annotation_boxes, if_neg hfmt]

/-- C10, witness: an "albu" batch passes through unchanged, and a "yolo"
batch goes through the facade. -/
theorem viz_albu_passthrough_witness :
    viz_vmo_annotation_boxes [⟨0.5, 0.5, 0.2, 0.2⟩] "albu" ⟨100, 100⟩ =
      .ok [⟨0.5, 0.5, 0.2, 0.2⟩] ∧
    viz_vmo_annotation_boxes [⟨0.5, 0.5, 0.2, 0.2⟩] "yolo" ⟨100, 100⟩ =
      get_albu_bbox true [⟨0.5, 0.5, 0.2, 0.2⟩] "yolo" ⟨100, 100⟩ :=
  viz_albu_passthrough [⟨0.5, 0.5, 0.2, 0.2⟩] "yolo" ⟨100, 100⟩ (by decide)

end Uniview
